import Mathlib

/-!
Verification development for the `schempy` schematic library.

The Python source (`schempy/utils.py`, `schempy/schematic.py`) is shallowly
embedded below.  Python strings are embedded as `List Char`, Python `int` as
`Int` (or `Nat` where the source only ever holds non-negative values),
Python dicts as insertion-ordered association lists, numpy arrays as a flat
row-major (C-order) list together with a shape, and the nbtlib tagged tree
as the inductive `NBT`.  Fallible Python code (raising `ValueError`,
`IndexError`, `KeyError`, `AttributeError`, `NotImplementedError`) is
embedded with `Except PyErr`.
-/

namespace Schempy

/-- The Python exception kinds raised by the embedded code.  The message of a
`ValueError` is kept so that distinct `ValueError` sites stay distinct. -/
inductive PyErr where
  | valueError (msg : String)
  | indexError
  | keyError
  | attributeError
  | typeError
  | notImplementedError
deriving DecidableEq

/-- A Python `str`, embedded as its list of characters. -/
abbrev PyStr := List Char

/-- Shorthand turning a Lean string literal into the embedded `PyStr`. -/
def pys (s : String) : PyStr := s.data

/-- First-match lookup in an insertion-ordered association list (the embedding
of a Python dict lookup; dict keys are unique, so first match is the match). -/
def pyAssocLookup {β : Type} (d : List (PyStr × β)) (k : PyStr) : Option β :=
  match d with
  | [] => none
  | (k', v) :: rest => if k' = k then some v else pyAssocLookup rest k

/-- `d[k] = v` on a Python dict: overwrite in place if the key is present
(keeping its position, as CPython does), otherwise append at the end. -/
def pyAssocInsert {β : Type} (d : List (PyStr × β)) (k : PyStr) (v : β) :
    List (PyStr × β) :=
  match d with
  | [] => [(k, v)]
  | (k', v') :: rest =>
    if k' = k then (k, v) :: rest else (k', v') :: pyAssocInsert rest k v

/-- Python list subscription `l[i]`: non-negative indices index from the
front, negative indices in `[-len, -1]` silently wrap to `len + i`, and
anything else raises `IndexError`. -/
def pyListGet {α : Type} (l : List α) (i : Int) : Except PyErr α :=
  if 0 ≤ i then
    match l.get? i.toNat with
    | some a => .ok a
    | none => .error .indexError
  else
    let j : Int := (l.length : Int) + i
    if 0 ≤ j then
      match l.get? j.toNat with
      | some a => .ok a
      | none => .error .indexError
    else .error .indexError

/-! ### utils.py -/

/-- `utils.to_unsigned_short`: raise `ValueError` unless `0 <= value <= 65535`,
else return the value unchanged. -/
def to_unsigned_short (value : Int) : Except PyErr Int :=
  if ¬(0 ≤ value ∧ value ≤ 65535) then
    .error (.valueError "Value must be between 0 and 65535.")
  else .ok value

/-- `utils.from_unsigned_short`: the source computes `value & 0xFFFF` on a
Python (arbitrary-precision, two's-complement) integer, i.e. `Int.land`
with the mask `65535`.  It is defined here by the equal arithmetic form
`value mod 2^16` so that it evaluates by kernel reduction; the theorem
`from_unsigned_short_eq_land` proves the two forms equal for every
integer. -/
def from_unsigned_short (value : Int) : Int := value.emod 65536

/-- `utils.encode_varint`, made structural with explicit fuel: the source
loops emitting the low 7 bits with the continuation bit `0x80` while more
bits remain.  Each iteration shifts `value` right by 7, so `value + 1`
iterations always suffice (see `encode_varint_go_fuel`). -/
def encode_varint_go (fuel value : Nat) : List Nat :=
  match fuel with
  | 0 => []
  | fuel + 1 =>
    let byte := value &&& 127
    let rest := value >>> 7
    if rest ≠ 0 then (byte ||| 128) :: encode_varint_go fuel rest
    else [byte]

/-- `utils.encode_varint`: encode a non-negative integer as a varint byte
list (low 7-bit group first, high bit = continuation). -/
def encode_varint (value : Nat) : List Nat :=
  encode_varint_go (value + 1) value

/-- The loop body of `utils.decode_varint`: `current` is the accumulator and
`bit_offset` the position for the next 7-bit group.  A byte with the high bit
clear terminates a number; a trailing run of continuation bytes is silently
discarded (the source never raises here). -/
def decode_varint_go (byte_array : List Nat) (current bit_offset : Nat) :
    List Nat :=
  match byte_array with
  | [] => []
  | byte :: rest =>
    let current' := current ||| ((byte &&& 127) <<< bit_offset)
    if byte &&& 128 ≠ 0 then decode_varint_go rest current' (bit_offset + 7)
    else current' :: decode_varint_go rest 0 0

/-- `utils.decode_varint`: decode a byte list into the list of the varint
numbers it contains. -/
def decode_varint (byte_array : List Nat) : List Nat :=
  decode_varint_go byte_array 0 0

/-- The shape-and-flat-data embedding of a numpy integer array.  The data is
kept in C (row-major) order, which is what `ravel`/`reshape` use.  All arrays
held by a `Schematic` contain palette indices, which are non-negative. -/
structure NpArray where
  shape : List Nat
  data : List Nat
deriving DecidableEq

/-- `utils.numpy_array_to_varint_bytearray`: `ravel` the array (the data is
already flat in C order) and concatenate the varint encodings. -/
def numpy_array_to_varint_bytearray (array : NpArray) : List Nat :=
  (array.data.map encode_varint).flatten

/-- `utils.varint_bytearray_to_numpy_array`: decode the whole byte stream and
`reshape` to the target shape; numpy `reshape` raises `ValueError` when the
element count does not match. -/
def varint_bytearray_to_numpy_array (byte_array : List Nat)
    (shape : List Nat) : Except PyErr NpArray :=
  let decoded := decode_varint byte_array
  if decoded.length = shape.prod then .ok ⟨shape, decoded⟩
  else .error (.valueError "cannot reshape array")

/-! ### schematic.py: Block values and canonical strings -/

/-- `Block`: a frozen dataclass with an `id` string and optional string
properties; the property dict keeps Python insertion order. -/
structure Block where
  id : PyStr
  properties : Option (List (PyStr × PyStr))
deriving DecidableEq

/-- Python dict equality (`d1 == d2`): same size and every entry of `d1`
present with an equal value in `d2`, ignoring insertion order.  Our dicts
have unique keys, for which this is exactly CPython dict equality. -/
def pyDictBeq (d1 d2 : List (PyStr × PyStr)) : Bool :=
  d1.length == d2.length &&
    d1.all (fun kv => pyAssocLookup d2 kv.1 == some kv.2)

/-- `Block.__eq__`: id equality and Python equality of `properties`; note
that `None == {}` is `False` in Python, so absent and empty properties
compare unequal. -/
def blockBeq (b1 b2 : Block) : Bool :=
  b1.id == b2.id &&
    match b1.properties, b2.properties with
    | none, none => true
    | some d1, some d2 => pyDictBeq d1 d2
    | _, _ => false

/-- `str.join` on a list of strings (used with separator `","`). -/
def pyJoin (sep : PyStr) (parts : List PyStr) : PyStr :=
  match parts with
  | [] => []
  | [p] => p
  | p :: rest => p ++ sep ++ pyJoin sep rest

/-- `Block.__str__`: `id` alone when `properties` is `None` or empty (both
are falsy in Python, so `properties_str` stays empty), otherwise
`id[k1=v1,k2=v2,...]` with the properties in stored iteration order. -/
def blockToString (b : Block) : PyStr :=
  let properties_str : PyStr :=
    match b.properties with
    | some props =>
      if props = [] then []
      else pyJoin [','] (props.map (fun kv => kv.1 ++ '=' :: kv.2))
    | none => []
  if properties_str ≠ [] then b.id ++ '[' :: (properties_str ++ [']'])
  else b.id

/-- Python `str.split(sep)` for a one-character separator: splits at every
occurrence, keeping empty pieces (`"".split(c) == [""]`). -/
def splitOnChar (c : Char) (s : PyStr) : List PyStr :=
  match s with
  | [] => [[]]
  | x :: xs =>
    if x = c then [] :: splitOnChar c xs
    else
      match splitOnChar c xs with
      | [] => [[x]]
      | h :: t => (x :: h) :: t

/-- One iteration of the property loop in `Palette.set_palette`:
`key, value = property_str.split('=')` (raising `ValueError` unless the
split has exactly two parts) followed by `properties[key] = value`. -/
def parse_property_step (properties : List (PyStr × PyStr))
    (property_str : PyStr) : Except PyErr (List (PyStr × PyStr)) :=
  match splitOnChar '=' property_str with
  | [key, value] => .ok (pyAssocInsert properties key value)
  | _ => .error (.valueError "unpack")

/-- The canonical-string parser inlined in `Palette.set_palette`: when the
string contains `'['` it is split into `id` and the bracketed property list
(`properties_str[:-1]` dropping the closing bracket), the list is split on
`','` and each piece on `'='`; otherwise the whole string is the id and the
properties stay `None`. -/
def parseBlockString (block_str : PyStr) : Except PyErr Block :=
  if '[' ∈ block_str then
    match splitOnChar '[' block_str with
    | [bid, props_part] =>
      match (splitOnChar ',' props_part.dropLast).foldlM
          parse_property_step [] with
      | .ok properties => .ok ⟨bid, some properties⟩
      | .error e => .error e
    | _ => .error (.valueError "unpack")
  else .ok ⟨block_str, none⟩

/-! ### schematic.py: Palette -/

/-- `Palette`: the value-to-index dict and the append-only index-to-value
list.  Indices live in `Int` because `set_palette` installs whatever integer
the file supplies. -/
structure Palette where
  block_to_index : List (Block × Int)
  index_to_block : List Block
deriving DecidableEq

/-- A fresh `Palette()`. -/
def Palette.empty : Palette := ⟨[], []⟩

/-- Dict lookup keyed by `Block` (using `Block.__eq__`). -/
def pyBlockLookup (d : List (Block × Int)) (b : Block) : Option Int :=
  match d with
  | [] => none
  | (b', i) :: rest => if blockBeq b' b then some i else pyBlockLookup rest b

/-- Dict store keyed by `Block`: overwriting keeps the originally inserted
key object and its position, as CPython does. -/
def pyBlockInsert (d : List (Block × Int)) (b : Block) (i : Int) :
    List (Block × Int) :=
  match d with
  | [] => [(b, i)]
  | (b', i') :: rest =>
    if blockBeq b' b then (b', i) :: rest
    else (b', i') :: pyBlockInsert rest b i

/-- `Palette.set_palette`: parse each canonical string, store
`block -> index` in the dict, and unconditionally append the block to the
index-to-value list (regardless of the supplied index). -/
def Palette.set_palette (p : Palette) (palette : List (PyStr × Int)) :
    Except PyErr Palette :=
  palette.foldlM
    (fun (p : Palette) entry => do
      let block ← parseBlockString entry.1
      Except.ok
        { block_to_index := pyBlockInsert p.block_to_index block entry.2,
          index_to_block := p.index_to_block ++ [block] })
    p

/-- `Palette.get_palette`: export the dict as canonical-string -> index. -/
def Palette.get_palette (p : Palette) : List (PyStr × Int) :=
  p.block_to_index.map (fun bi => (blockToString bi.1, bi.2))

/-- `Palette.get_id`: return the existing index, or append the block at
index `len(index_to_block)`.  Returns the possibly grown palette. -/
def Palette.get_id (p : Palette) (block : Block) : Palette × Int :=
  match pyBlockLookup p.block_to_index block with
  | some i => (p, i)
  | none =>
    let i : Int := p.index_to_block.length
    ({ block_to_index := pyBlockInsert p.block_to_index block i,
       index_to_block := p.index_to_block ++ [block] }, i)

/-- `Palette.get_block`: plain Python list subscription into
`index_to_block`, with Python semantics (negative indices wrap). -/
def Palette.get_block (p : Palette) (index : Int) : Except PyErr Block :=
  pyListGet p.index_to_block index

/-! ### The nbtlib tagged tree -/

/-- The fragment of the nbtlib tag universe the source uses.  A file is the
field list of its root compound.  NBT byte arrays store signed bytes, but
Python bitwise masking makes the varint decoder read them exactly as the
raw unsigned bytes written by the saver, so bytes are kept as `0..255`. -/
inductive NBT where
  | int (v : Int)
  | long (v : Int)
  | string (s : PyStr)
  | byteArray (bytes : List Nat)
  | intArray (vs : List Int)
  | list (items : List NBT)
  | compound (fields : List (PyStr × NBT))

/-- The root compound of an nbtlib `File`. -/
abbrev NBTFile := List (PyStr × NBT)

/-- Numeric equality test `tag == n` between an nbt tag and a Python int
(non-numeric tags compare unequal). -/
def nbtEqInt (v : NBT) (n : Int) : Bool :=
  match v with
  | .int m => m == n
  | .long m => m == n
  | _ => false

/-! ### schematic.py: numpy grid and Schematic -/

/-- Resolve one numpy axis index: `-n <= i < n` is valid (negative indices
wrap), anything else raises `IndexError`. -/
def npIndex (n : Nat) (i : Int) : Except PyErr Nat :=
  if 0 ≤ i ∧ i < (n : Int) then .ok i.toNat
  else if -(n : Int) ≤ i ∧ i < 0 then .ok ((n : Int) + i).toNat
  else .error .indexError

/-- `np.zeros((d0, d1, d2), dtype=int)`. -/
def npZeros (d0 d1 d2 : Nat) : NpArray :=
  ⟨[d0, d1, d2], List.replicate (d0 * d1 * d2) 0⟩

/-- `array[x, y, z]` on a 3-D numpy array (C-order flat storage). -/
def NpArray.get3 (a : NpArray) (x y z : Int) : Except PyErr Nat :=
  match a.shape with
  | [d0, d1, d2] => do
    let i ← npIndex d0 x
    let j ← npIndex d1 y
    let k ← npIndex d2 z
    match a.data.get? ((i * d1 + j) * d2 + k) with
    | some v => .ok v
    | none => .error .indexError
  | _ => .error .indexError

/-- `array[x, y, z] = v` on a 3-D numpy array. -/
def NpArray.set3 (a : NpArray) (x y z : Int) (v : Nat) :
    Except PyErr NpArray :=
  match a.shape with
  | [d0, d1, d2] => do
    let i ← npIndex d0 x
    let j ← npIndex d1 y
    let k ← npIndex d2 z
    if (i * d1 + j) * d2 + k < a.data.length then
      .ok ⟨a.shape, a.data.set ((i * d1 + j) * d2 + k) v⟩
    else .error .indexError
  | _ => .error .indexError

/-- `BlockEntity`: a frozen dataclass; `properties` defaults to `None`. -/
structure BlockEntity where
  id : PyStr
  x : Int
  y : Int
  z : Int
  properties : Option (List (PyStr × PyStr))
deriving DecidableEq

/-- Modelled from the spec: `schempy.constants` is not under `src/`; the
spec says a fresh block palette binds index 0 to a designated "air" value,
an opaque block identifier string. -/
def MINECRAFT_AIR : PyStr := pys "minecraft:air"

/-- Modelled from the spec: `schempy.constants.DATA_VERSION` is not under
`src/`; the spec only says it is an integer identifying the target game data
version, and no claim depends on its value. -/
def DATA_VERSION : Int := 0

/-- The `Schematic` aggregate.  `metadata` keeps the user's free-form
string-to-string entries (the only kind the saver writes for it);
`date` holds the epoch seconds of `datetime.now()` as an integer (wall-clock
time and the float-seconds representation are not modelled — no claim
touches the `Date` metadata field). -/
structure Schematic where
  width : Int
  height : Int
  length : Int
  offset : List Int
  data_version : Int
  name : PyStr
  author : PyStr
  date : Int
  required_mods : List PyStr
  metadata : List (PyStr × PyStr)
  block_palette : Palette
  block_data : NpArray
  block_entities : List BlockEntity
  biome_palette : Palette
  biome_data : NpArray
  entities : List NBT

/-- `Schematic.__init__`: validate the dimensions through
`to_unsigned_short`, seed the block palette with air at index 0, and
allocate zero grids of shape `(length, height, width)`. -/
def Schematic.init (width height length : Int) : Except PyErr Schematic := do
  let w ← to_unsigned_short width
  let h ← to_unsigned_short height
  let l ← to_unsigned_short length
  let seeded := (Palette.empty.get_id ⟨MINECRAFT_AIR, none⟩).1
  Except.ok
    { width := w, height := h, length := l,
      offset := [0, 0, 0], data_version := DATA_VERSION,
      name := pys "My Schematic", author := pys "SchemPy",
      date := 0, required_mods := [], metadata := [],
      block_palette := seeded,
      block_data := npZeros l.toNat h.toNat w.toNat,
      block_entities := [],
      biome_palette := Palette.empty,
      biome_data := npZeros l.toNat h.toNat w.toNat,
      entities := [] }

/-- `Schematic._check_coordinates`: raise `ValueError` unless
`0 <= x < width`, `0 <= y < height` and `0 <= z < length`. -/
def Schematic.check_coordinates (s : Schematic) (x y z : Int) :
    Except PyErr Unit :=
  if 0 ≤ x ∧ x < s.width ∧ 0 ≤ y ∧ y < s.height ∧ 0 ≤ z ∧ z < s.length then
    .ok ()
  else .error (.valueError "Coordinates out of range.")

/-- `Schematic.get_block`: bounds check, then read the palette index at
`block_data[x, y, z]` and look it up in the block palette. -/
def Schematic.get_block (s : Schematic) (x y z : Int) : Except PyErr Block := do
  s.check_coordinates x y z
  let idx ← s.block_data.get3 x y z
  s.block_palette.get_block (idx : Int)

/-- `Schematic.set_block`: bounds check, then `get_id` (which may grow the
palette) and store the index at `block_data[x, y, z]`.  As in Python, the
palette is grown before the numpy store can raise. -/
def Schematic.set_block (s : Schematic) (x y z : Int) (block : Block) :
    Except PyErr Schematic := do
  s.check_coordinates x y z
  let grown := s.block_palette.get_id block
  let bd ← s.block_data.set3 x y z grown.2.toNat
  Except.ok { s with block_palette := grown.1, block_data := bd }

/-- `Schematic.add_block_entity`: bounds check the entity's coordinates and
append it. -/
def Schematic.add_block_entity (s : Schematic) (block_entity : BlockEntity) :
    Except PyErr Schematic := do
  s.check_coordinates block_entity.x block_entity.y block_entity.z
  Except.ok { s with block_entities := s.block_entities ++ [block_entity] }

/-! ### schematic.py: saving -/

/-- `Schematic._prepare_metadata`: wrap the user metadata entries as string
tags, then `update` with `Name`, `Author`, `Date` (epoch milliseconds) and
`RequiredMods` in that order. -/
def Schematic.prepare_metadata (s : Schematic) : List (PyStr × NBT) :=
  let metadata := s.metadata.map (fun kv => (kv.1, NBT.string kv.2))
  let metadata := pyAssocInsert metadata (pys "Name") (NBT.string s.name)
  let metadata := pyAssocInsert metadata (pys "Author") (NBT.string s.author)
  let metadata := pyAssocInsert metadata (pys "Date") (NBT.long (s.date * 1000))
  pyAssocInsert metadata (pys "RequiredMods")
    (NBT.list (s.required_mods.map NBT.string))

/-- `Schematic._save_to_file_v1`: unconditionally
`NotImplementedError`. -/
def Schematic.save_to_file_v1 (_ : Schematic) : Except PyErr NBTFile :=
  .error .notImplementedError

/-- `Schematic._save_to_file_v2`: the source reads `self._data_version`,
`self._metadata` and `self._offset`, but `__init__` only ever defines
`self.data_version`, `self.metadata` and `self.offset` (no underscore), so
building the keyword arguments raises `AttributeError` before any tree is
constructed — on every schematic.  (As written, its `BiomePaletteMax` and
`BiomePalette` expressions name the *block* palette.) -/
def Schematic.save_to_file_v2 (_ : Schematic) : Except PyErr NBTFile :=
  .error .attributeError

/-- `Schematic._save_to_file_v3`: build the nested `Schematic` compound.
Block entities with `properties = None` raise `AttributeError`
(`None.items()`).  `Biomes` is emitted only when the biome palette is
non-empty, `Entities` only when non-empty (it is always empty). -/
def Schematic.save_to_file_v3 (s : Schematic) : Except PyErr NBTFile := do
  let metadata := s.prepare_metadata
  let block_palette := s.block_palette.get_palette.map
    (fun kv => (kv.1, NBT.int kv.2))
  let block_data := numpy_array_to_varint_bytearray s.block_data
  let block_entities ← s.block_entities.mapM (fun entity => do
    let props ← match entity.properties with
      | some d => Except.ok (d.map (fun kv => (kv.1, NBT.string kv.2)))
      | none => Except.error PyErr.attributeError
    Except.ok (NBT.compound
      [(pys "Pos", NBT.intArray [entity.x, entity.y, entity.z]),
       (pys "Id", NBT.string entity.id),
       (pys "Data", NBT.compound props)]))
  let biome_palette := s.biome_palette.get_palette.map
    (fun kv => (kv.1, NBT.int kv.2))
  let biome_data := numpy_array_to_varint_bytearray s.biome_data
  let entities : List NBT := []
  let schematicFields : List (PyStr × NBT) :=
    [(pys "Version", NBT.int 3),
     (pys "DataVersion", NBT.int s.data_version),
     (pys "Metadata", NBT.compound metadata),
     (pys "Width", NBT.int s.width),
     (pys "Height", NBT.int s.height),
     (pys "Length", NBT.int s.length),
     (pys "Offset", NBT.intArray s.offset),
     (pys "Blocks", NBT.compound
       [(pys "Palette", NBT.compound block_palette),
        (pys "Data", NBT.byteArray block_data),
        (pys "BlockEntities", NBT.list block_entities)])]
  let schematicFields :=
    if 0 < biome_palette.length then
      schematicFields ++ [(pys "Biomes", NBT.compound
        [(pys "Palette", NBT.compound biome_palette),
         (pys "Data", NBT.byteArray biome_data)])]
    else schematicFields
  let schematicFields :=
    if 0 < entities.length then
      schematicFields ++ [(pys "Entities", NBT.list entities)]
    else schematicFields
  Except.ok [(pys "Schematic", NBT.compound schematicFields)]

/-- `Schematic.save_to_file`, version dispatch only: the path checks
(parent directory exists, `.schem` extension) and the gzip write are
filesystem effects outside the embedded model. -/
def Schematic.save_to_file (s : Schematic) (version : Int) :
    Except PyErr NBTFile :=
  if version == 1 then s.save_to_file_v1
  else if version == 2 then s.save_to_file_v2
  else if version == 3 then s.save_to_file_v3
  else .error (.valueError "Invalid schematic version.")

/-! ### schematic.py: parsing -/

/-- Python dict subscription `data[k]`: `KeyError` when absent. -/
def getRequired (data : NBTFile) (k : PyStr) : Except PyErr NBT :=
  match pyAssocLookup data k with
  | some v => .ok v
  | none => .error .keyError

/-- Read a numeric tag as a Python int (a non-numeric tag would fail the
subsequent arithmetic with `TypeError`). -/
def nbtAsInt (v : NBT) : Except PyErr Int :=
  match v with
  | .int m => .ok m
  | .long m => .ok m
  | _ => .error .typeError

/-- Read an int-array tag (the `Offset` field; a tag of another type would
make the later save fail, modelled as `TypeError`). -/
def nbtAsIntArray (v : NBT) : Except PyErr (List Int) :=
  match v with
  | .intArray vs => .ok vs
  | _ => .error .typeError

/-- Read a `Palette` compound as canonical-string/index pairs. -/
def nbtAsPalette (v : Option NBT) : Except PyErr (List (PyStr × Int)) :=
  match v with
  | some (.compound pf) =>
    pf.mapM (fun kv =>
      match kv.2 with
      | NBT.int i => Except.ok (kv.1, i)
      | _ => Except.error PyErr.typeError)
  | some _ => .error .typeError
  | none => .error .keyError

/-- Read a byte-array tag (`Data` / `BlockData`). -/
def nbtAsBytes (v : Option NBT) : Except PyErr (List Nat) :=
  match v with
  | some (.byteArray bs) => .ok bs
  | some _ => .error .typeError
  | none => .error .keyError

/-- The `try` block shared by `_parse_file_v2/_parse_file_v3`: read `Width`,
`Height`, `Length` (each through `from_unsigned_short`), construct the
`Schematic`, then read `Offset` and `DataVersion`.  A `KeyError` anywhere in
it is converted to `ValueError("Invalid schematic file.")`; other failures
propagate unchanged. -/
def parseRequiredFields (data : NBTFile) : Except PyErr Schematic :=
  match (do
      let wTag ← getRequired data (pys "Width")
      let wN ← nbtAsInt wTag
      let hTag ← getRequired data (pys "Height")
      let hN ← nbtAsInt hTag
      let lTag ← getRequired data (pys "Length")
      let lN ← nbtAsInt lTag
      let sInit ← Schematic.init (from_unsigned_short wN)
        (from_unsigned_short hN) (from_unsigned_short lN)
      let offTag ← getRequired data (pys "Offset")
      let off ← nbtAsIntArray offTag
      let dvTag ← getRequired data (pys "DataVersion")
      let dvN ← nbtAsInt dvTag
      Except.ok { sInit with offset := off, data_version := dvN }
    : Except PyErr Schematic) with
  | .ok s => .ok s
  | .error .keyError => .error (.valueError "Invalid schematic file.")
  | .error e => .error e

/-- The optional `Metadata` assignment: the source stores the raw compound
into `schematic.metadata`; the model keeps its string entries (the only kind
the saver writes into user metadata). -/
def applyMetadata (s : Schematic) (data : NBTFile) : Schematic :=
  match pyAssocLookup data (pys "Metadata") with
  | some (.compound m) =>
    { s with metadata := m.filterMap (fun kv =>
        match kv.2 with
        | NBT.string str => some (kv.1, str)
        | _ => none) }
  | _ => s

/-- `Schematic._parse_file_v1`: unconditionally `NotImplementedError`. -/
def Schematic.parse_file_v1 (_ : NBTFile) : Except PyErr Schematic :=
  .error .notImplementedError

/-- `Schematic._parse_file_v2`: required fields at top level, then the
optional `Metadata`, `Palette` (loaded into the block palette), `BlockData`
and `BiomeData` (both varint-decoded).  Note the source never reads
`BlockEntities`, `Entities` or `BiomePalette` here. -/
def Schematic.parse_file_v2 (file : NBTFile) : Except PyErr Schematic := do
  let s ← parseRequiredFields file
  let s := applyMetadata s file
  let shape : List Nat := [s.length.toNat, s.height.toNat, s.width.toNat]
  let s ← match pyAssocLookup file (pys "Palette") with
    | some tag => do
      let entries ← nbtAsPalette (some tag)
      let bp ← s.block_palette.set_palette entries
      Except.ok { s with block_palette := bp }
    | none => Except.ok s
  let s ← match pyAssocLookup file (pys "BlockData") with
    | some tag => do
      let bytes ← nbtAsBytes (some tag)
      let bd ← varint_bytearray_to_numpy_array bytes shape
      Except.ok { s with block_data := bd }
    | none => Except.ok s
  let s ← match pyAssocLookup file (pys "BiomeData") with
    | some tag => do
      let bytes ← nbtAsBytes (some tag)
      let bd ← varint_bytearray_to_numpy_array bytes shape
      Except.ok { s with biome_data := bd }
    | none => Except.ok s
  Except.ok s

/-- `Schematic._parse_file_v3`: everything under the `Schematic` root.
Faithful to the source: the `Blocks` sub-tree loads palette and grid but
its `BlockEntities` list is never read; the `Biomes` sub-tree loads its
palette into the *block* palette (source bug) and its data into
`biome_data`; `Entities` is passed through. -/
def Schematic.parse_file_v3 (file : NBTFile) : Except PyErr Schematic := do
  let data ← match pyAssocLookup file (pys "Schematic") with
    | some (.compound c) => Except.ok c
    | some _ => Except.error PyErr.attributeError
    | none => Except.error PyErr.keyError
  let s ← parseRequiredFields data
  let s := applyMetadata s data
  let shape : List Nat := [s.length.toNat, s.height.toNat, s.width.toNat]
  let s ← match pyAssocLookup data (pys "Blocks") with
    | some (.compound blocks) => do
      let entries ← nbtAsPalette (pyAssocLookup blocks (pys "Palette"))
      let bp ← s.block_palette.set_palette entries
      let bytes ← nbtAsBytes (pyAssocLookup blocks (pys "Data"))
      let bd ← varint_bytearray_to_numpy_array bytes shape
      Except.ok { s with block_palette := bp, block_data := bd }
    | some _ => Except.error PyErr.attributeError
    | none => Except.ok s
  let s ← match pyAssocLookup data (pys "Biomes") with
    | some (.compound biomes) => do
      let entries ← nbtAsPalette (pyAssocLookup biomes (pys "Palette"))
      let bp ← s.block_palette.set_palette entries
      let bytes ← nbtAsBytes (pyAssocLookup biomes (pys "Data"))
      let bd ← varint_bytearray_to_numpy_array bytes shape
      Except.ok { s with block_palette := bp, biome_data := bd }
    | some _ => Except.error PyErr.attributeError
    | none => Except.ok s
  let s := match pyAssocLookup data (pys "Entities") with
    | some (.list es) => { s with entities := es }
    | _ => s
  Except.ok s

/-- `Schematic._parse_file`: read a top-level `Version` tag, falling back to
the `Version` tag of a nested `Schematic` compound, fail with
`ValueError("Invalid schematic file: Version not found.")` when neither
exists, and dispatch on the numeric value. -/
def Schematic.parse_file (file : NBTFile) : Except PyErr Schematic := do
  let version ← match pyAssocLookup file (pys "Version") with
    | some v => Except.ok (some v)
    | none =>
      match pyAssocLookup file (pys "Schematic") with
      | some (.compound c) => Except.ok (pyAssocLookup c (pys "Version"))
      | some _ => Except.error PyErr.attributeError
      | none => Except.ok none
  match version with
  | none => .error (.valueError "Invalid schematic file: Version not found.")
  | some v =>
    if nbtEqInt v 1 then Schematic.parse_file_v1 file
    else if nbtEqInt v 2 then Schematic.parse_file_v2 file
    else if nbtEqInt v 3 then Schematic.parse_file_v3 file
    else .error (.valueError "Invalid schematic version.")

/-! ### Concrete claim scenarios -/

/-- The block entity of the spec's end-to-end scenario, at `(0, 0, 0)`. -/
def roundTripEntity : BlockEntity := ⟨pys "minecraft:chest", 0, 0, 0, some []⟩

/-- The spec's end-to-end scenario: a fresh 2x2x2 schematic, eight distinct
block values set at all eight cells, one block entity added. -/
def roundTripOriginal : Except PyErr Schematic := do
  let s ← Schematic.init 2 2 2
  let s ← s.set_block 0 0 0 ⟨pys "minecraft:b0", none⟩
  let s ← s.set_block 0 0 1 ⟨pys "minecraft:b1", none⟩
  let s ← s.set_block 0 1 0 ⟨pys "minecraft:b2", none⟩
  let s ← s.set_block 0 1 1 ⟨pys "minecraft:b3", none⟩
  let s ← s.set_block 1 0 0 ⟨pys "minecraft:b4", none⟩
  let s ← s.set_block 1 0 1 ⟨pys "minecraft:b5", none⟩
  let s ← s.set_block 1 1 0 ⟨pys "minecraft:b6", none⟩
  let s ← s.set_block 1 1 1 ⟨pys "minecraft:wool", some [(pys "color", pys "red")]⟩
  s.add_block_entity roundTripEntity

/-- The scenario saved as version 3 and parsed back. -/
def roundTripLoaded : Except PyErr Schematic := do
  let s ← roundTripOriginal
  let tree ← s.save_to_file 3
  Schematic.parse_file tree

/-- A version-3 file whose stored `Width` is `-1`. -/
def negWidthTreeV3 : NBTFile :=
  [(pys "Schematic", NBT.compound
    [(pys "Version", NBT.int 3),
     (pys "Width", NBT.int (-1)),
     (pys "Height", NBT.int 0),
     (pys "Length", NBT.int 1),
     (pys "Offset", NBT.intArray [0, 0, 0]),
     (pys "DataVersion", NBT.int 100)])]

/-- A version-2 file whose stored `Width` is `-1`. -/
def negWidthTreeV2 : NBTFile :=
  [(pys "Version", NBT.int 2),
   (pys "Width", NBT.int (-1)),
   (pys "Height", NBT.int 0),
   (pys "Length", NBT.int 1),
   (pys "Offset", NBT.intArray [0, 0, 0]),
   (pys "DataVersion", NBT.int 100)]

/-- The canonical-string-to-index entries `[(s_0, start), (s_1, start+1), ...]`
of a dense, in-order palette mapping. -/
def denseEntries (pairs : List (PyStr × Block)) (start : Nat) :
    List (PyStr × Int) :=
  match pairs with
  | [] => []
  | pr :: rest => (pr.1, (start : Int)) :: denseEntries rest (start + 1)

/-- The block-to-index table produced by loading a dense, in-order palette
mapping. -/
def denseDict (pairs : List (PyStr × Block)) (start : Nat) :
    List (Block × Int) :=
  match pairs with
  | [] => []
  | pr :: rest => (pr.2, (start : Int)) :: denseDict rest (start + 1)

/-! ## Lemmas and theorems -/

/-! ### `value & 0xFFFF` is reduction modulo `2^16` -/

lemma testBit_mask_sub : ∀ (i n r : Nat), r < 2 ^ n →
    (2 ^ n - 1 - r).testBit i = (decide (i < n) && !(r.testBit i)) := by
  intro i
  induction i with
  | zero =>
    intro n r hr
    cases n with
    | zero =>
      interval_cases r
      simp
    | succ m =>
      rw [Nat.testBit_zero, Nat.testBit_zero]
      have hpow : (2 : Nat) ^ (m + 1) = 2 * 2 ^ m := by rw [pow_succ]; ring
      have hx : 1 ≤ (2 : Nat) ^ m := Nat.one_le_two_pow
      rw [hpow] at hr ⊢
      have hm : (2 * 2 ^ m - 1 - r) % 2 = 1 - r % 2 := by omega
      rw [hm]
      rcases Nat.mod_two_eq_zero_or_one r with h | h <;> simp [h]
  | succ i ih =>
    intro n r hr
    cases n with
    | zero =>
      interval_cases r
      simp
    | succ m =>
      rw [Nat.testBit_succ, Nat.testBit_succ]
      have hpow : (2 : Nat) ^ (m + 1) = 2 * 2 ^ m := by rw [pow_succ]; ring
      have hx : 1 ≤ (2 : Nat) ^ m := Nat.one_le_two_pow
      have hdiv : (2 ^ (m + 1) - 1 - r) / 2 = 2 ^ m - 1 - r / 2 := by
        rw [hpow]
        rw [hpow] at hr
        omega
      rw [hdiv]
      rw [ih m (r / 2) (by rw [hpow] at hr; omega)]
      simp [Nat.succ_lt_succ_iff]

lemma ldiff_mask (m : Nat) : Nat.ldiff 65535 m = 65535 - m % 65536 := by
  apply Nat.eq_of_testBit_eq
  intro i
  rw [Nat.testBit_ldiff]
  have h1 : (65535 : Nat) = 2 ^ 16 - 1 := by norm_num
  have h2 : (65536 : Nat) = 2 ^ 16 := by norm_num
  rw [h1, h2]
  rw [Nat.testBit_two_pow_sub_one]
  rw [testBit_mask_sub i 16 (m % 2 ^ 16) (Nat.mod_lt _ (by norm_num))]
  rw [Nat.testBit_mod_two_pow]
  by_cases hi : i < 16 <;> simp [hi]

lemma int_land_mask (v : Int) : Int.land v 65535 = v.emod 65536 := by
  cases v with
  | ofNat m =>
    show (Int.ofNat (m &&& 65535)) = Int.ofNat m % 65536
    have h : m &&& 65535 = m % 65536 := by
      have h16 := Nat.and_pow_two_sub_one_eq_mod m 16
      norm_num at h16
      exact h16
    rw [h]
    simp only [Int.ofNat_eq_natCast]
    omega
  | negSucc m =>
    show (Int.ofNat (Nat.ldiff 65535 m)) = Int.negSucc m % 65536
    rw [ldiff_mask]
    simp only [Int.ofNat_eq_natCast, Int.negSucc_eq]
    omega

/-- `from_unsigned_short` agrees with the source's bitwise expression
`value & 0xFFFF` on every integer. -/
theorem from_unsigned_short_eq_land (value : Int) :
    from_unsigned_short value = Int.land value 65535 :=
  (int_land_mask value).symm

/-! ### Varint codec correctness -/

lemma and127_eq_mod (v : Nat) : v &&& 127 = v % 128 := by
  have h := Nat.and_pow_two_sub_one_eq_mod v 7
  norm_num at h
  exact h

lemma shiftRight7_eq_div (v : Nat) : v >>> 7 = v / 128 := by
  have h := Nat.shiftRight_eq_div_pow v 7
  norm_num at h
  exact h

lemma testBit7_of_lt (x : Nat) (h : x < 128) : x.testBit 7 = false :=
  Nat.testBit_lt_two_pow (by norm_num; exact h)

lemma cont_byte_test (x : Nat) : (x ||| 128) &&& 128 ≠ 0 := by
  have ht : (x ||| 128).testBit 7 = true := by
    rw [show (128 : Nat) = 2 ^ 7 from by norm_num, Nat.testBit_or,
      Nat.testBit_two_pow_self, Bool.or_true]
  have h := Nat.and_two_pow (x ||| 128) 7
  rw [ht] at h
  norm_num at h
  rw [h]
  norm_num

lemma low_byte_test (x : Nat) (h : x < 128) : x &&& 128 = 0 := by
  have h2 : (128 : Nat) = 2 ^ 7 := by norm_num
  have ha := Nat.and_two_pow x 7
  rw [h2, ha, testBit7_of_lt x h]
  norm_num

lemma or128_and127 (x : Nat) (h : x < 128) : (x ||| 128) &&& 127 = x := by
  apply Nat.eq_of_testBit_eq
  intro i
  rw [Nat.testBit_and, Nat.testBit_or]
  by_cases hi : i < 7
  · have h128 : (128 : Nat).testBit i = false := by
      rw [show (128 : Nat) = 2 ^ 7 by norm_num]
      exact Nat.testBit_two_pow_of_ne (by omega)
    have h127 : (127 : Nat).testBit i = true := by
      rw [show (127 : Nat) = 2 ^ 7 - 1 by norm_num, Nat.testBit_two_pow_sub_one]
      simp [hi]
    simp [h128, h127]
  · have hx : x.testBit i = false := by
      apply Nat.testBit_lt_two_pow
      calc x < 128 := h
        _ = 2 ^ 7 := by norm_num
        _ ≤ 2 ^ i := Nat.pow_le_pow_right (by norm_num) (by omega)
    have h127 : (127 : Nat).testBit i = false := by
      rw [show (127 : Nat) = 2 ^ 7 - 1 by norm_num, Nat.testBit_two_pow_sub_one]
      simp [hi]
    simp [hx, h127]

lemma or_shiftLeft_eq_add (a c k : Nat) (h : a < 2 ^ k) :
    a ||| (c <<< k) = a + c * 2 ^ k := by
  apply Nat.eq_of_testBit_eq
  intro i
  rw [Nat.testBit_or, Nat.testBit_shiftLeft]
  rw [show a + c * 2 ^ k = 2 ^ k * c + a by ring]
  rw [Nat.testBit_mul_pow_two_add c h i]
  by_cases hik : i < k
  · simp [hik, Nat.not_le_of_lt hik]
  · have hx : a.testBit i = false := by
      apply Nat.testBit_lt_two_pow
      exact lt_of_lt_of_le h (Nat.pow_le_pow_right (by norm_num) (by omega))
    simp [hik, hx, Nat.le_of_not_lt hik]

lemma encode_go_succ (fuel v : Nat) :
    encode_varint_go (fuel + 1) v =
      if v >>> 7 ≠ 0 then ((v &&& 127) ||| 128) :: encode_varint_go fuel (v >>> 7)
      else [v &&& 127] := rfl

lemma decode_go_cons (b : Nat) (rest : List Nat) (cur bit : Nat) :
    decode_varint_go (b :: rest) cur bit =
      if b &&& 128 ≠ 0 then
        decode_varint_go rest (cur ||| ((b &&& 127) <<< bit)) (bit + 7)
      else (cur ||| ((b &&& 127) <<< bit)) :: decode_varint_go rest 0 0 := rfl

lemma cont_and127 (v : Nat) : (((v &&& 127) ||| 128) &&& 127) = v % 128 := by
  rw [or128_and127 (v &&& 127) (by rw [and127_eq_mod]; exact Nat.mod_lt v (by norm_num)),
    and127_eq_mod]

lemma decode_go_encode_go (fuel : Nat) :
    ∀ value, value < fuel → ∀ (rest : List Nat) (cur bit : Nat), cur < 2 ^ bit →
      decode_varint_go (encode_varint_go fuel value ++ rest) cur bit
        = (cur + value * 2 ^ bit) :: decode_varint_go rest 0 0 := by
  induction fuel with
  | zero => intro v hv; omega
  | succ fuel ih =>
    intro v hv rest cur bit hc
    by_cases hr : v >>> 7 ≠ 0
    · have hmod : v % 128 < 128 := Nat.mod_lt v (by norm_num)
      rw [encode_go_succ, if_pos hr, List.cons_append, decode_go_cons,
        if_pos (cont_byte_test (v &&& 127)), cont_and127]
      rw [or_shiftLeft_eq_add _ _ _ hc]
      have hcur' : cur + v % 128 * 2 ^ bit < 2 ^ (bit + 7) := by
        have h1 : cur + v % 128 * 2 ^ bit < 128 * 2 ^ bit := by nlinarith
        calc cur + v % 128 * 2 ^ bit < 128 * 2 ^ bit := h1
          _ = 2 ^ (bit + 7) := by rw [pow_add]; ring
      have hrest_lt : v >>> 7 < fuel := by
        rw [shiftRight7_eq_div]
        have hvpos : 0 < v := by
          rcases Nat.eq_zero_or_pos v with h0 | h0
          · subst h0; simp at hr
          · exact h0
        have : v / 128 < v := Nat.div_lt_self hvpos (by norm_num)
        omega
      rw [ih (v >>> 7) hrest_lt rest _ (bit + 7) hcur']
      congr 1
      rw [shiftRight7_eq_div]
      have hsplit := Nat.div_add_mod v 128
      rw [pow_add]
      generalize v / 128 = q at hsplit ⊢
      generalize v % 128 = s at hsplit ⊢
      rw [← hsplit]
      ring
    · push_neg at hr
      have hvlt : v < 128 := by
        rw [shiftRight7_eq_div] at hr
        by_contra hge
        push_neg at hge
        have : 1 ≤ v / 128 := (Nat.le_div_iff_mul_le (by norm_num)).mpr (by omega)
        omega
      have hb : v &&& 127 = v := by
        rw [and127_eq_mod]; exact Nat.mod_eq_of_lt hvlt
      rw [encode_go_succ, if_neg (by simpa using hr), List.cons_append,
        decode_go_cons, if_neg (by rw [hb]; simp [low_byte_test v hvlt])]
      rw [hb, hb, or_shiftLeft_eq_add _ _ _ hc, List.nil_append]

lemma decode_encode_append (v : Nat) (rest : List Nat) :
    decode_varint_go (encode_varint v ++ rest) 0 0
      = v :: decode_varint_go rest 0 0 := by
  have h := decode_go_encode_go (v + 1) v (by omega) rest 0 0 (by norm_num)
  simpa using h

theorem decode_encode (v : Nat) : decode_varint (encode_varint v) = [v] := by
  have h := decode_encode_append v []
  simpa [decode_varint, decode_varint_go] using h

theorem decode_encode_list (l : List Nat) :
    decode_varint ((l.map encode_varint).flatten) = l := by
  induction l with
  | nil => rfl
  | cons v t ih =>
    show decode_varint_go ((encode_varint v ++ (t.map encode_varint).flatten)) 0 0 = v :: t
    rw [decode_encode_append]
    exact congrArg (v :: ·) ih

-- C3 support
lemma decode_go_all_cont (bs : List Nat) (h : ∀ b ∈ bs, b &&& 128 ≠ 0) :
    ∀ cur bit, decode_varint_go bs cur bit = [] := by
  induction bs with
  | nil => intro cur bit; rfl
  | cons b rest ih =>
    intro cur bit
    rw [decode_go_cons, if_pos (h b (by simp))]
    exact ih (fun x hx => h x (by simp [hx])) _ _

lemma encode_go_ne_nil (fuel v : Nat) (h : v < fuel) :
    encode_varint_go fuel v ≠ [] := by
  cases fuel with
  | zero => omega
  | succ fuel =>
    unfold encode_varint_go
    by_cases hr : v >>> 7 ≠ 0 <;> simp [hr]

lemma encode_go_dropLast_cont (fuel : Nat) :
    ∀ v, v < fuel → ∀ b ∈ (encode_varint_go fuel v).dropLast, b &&& 128 ≠ 0 := by
  induction fuel with
  | zero => intro v hv; omega
  | succ fuel ih =>
    intro v hv b hb
    by_cases hr : v >>> 7 ≠ 0
    · rw [encode_go_succ, if_pos hr] at hb
      have hrest_lt : v >>> 7 < fuel := by
        rw [shiftRight7_eq_div] at hr ⊢
        have : v / 128 < v := Nat.div_lt_self (by
          rcases Nat.eq_zero_or_pos v with h0 | h0
          · subst h0; simp at hr
          · exact h0) (by norm_num)
        omega
      rw [List.dropLast_cons_of_ne_nil (encode_go_ne_nil fuel _ hrest_lt)] at hb
      rcases List.mem_cons.mp hb with h1 | h2
      · subst h1; exact cont_byte_test _
      · exact ih (v >>> 7) hrest_lt b h2
    · rw [encode_go_succ, if_neg (by simpa using hr)] at hb
      simp at hb

lemma encode_dropLast_cont (v : Nat) :
    ∀ b ∈ (encode_varint v).dropLast, b &&& 128 ≠ 0 :=
  encode_go_dropLast_cont (v + 1) v (by omega)

/-- **C3 (amended)**: for every non-empty sequence of values, decoding the
varint stream with its last byte dropped does not fail: `decode_varint` has
no failure path at all — it returns the fully terminated values and silently
discards the trailing partial bytes, so exactly the last value is lost. -/
theorem decode_truncated_drops_partial_value (l : List Nat) (h : l ≠ []) :
    decode_varint (((l.map encode_varint).flatten).dropLast) = l.dropLast := by
  induction l with
  | nil => simp at h
  | cons v t ih =>
    by_cases ht : t = []
    · subst ht
      show decode_varint ((encode_varint v ++ []).dropLast) = []
      rw [List.append_nil]
      exact decode_go_all_cont _ (encode_dropLast_cont v) 0 0
    · have hflat : ((v :: t).map encode_varint).flatten
          = encode_varint v ++ (t.map encode_varint).flatten := by simp
      rw [hflat]
      have hne : (t.map encode_varint).flatten ≠ [] := by
        cases t with
        | nil => simp at ht
        | cons x xs =>
          simp only [List.map_cons, List.flatten_cons]
          intro hcontra
          have := encode_go_ne_nil (x + 1) x (by omega)
          rcases List.append_eq_nil.mp hcontra with ⟨h1, _⟩
          exact this h1
      rw [List.dropLast_append_of_ne_nil _ hne]
      show decode_varint_go _ 0 0 = _
      rw [decode_encode_append]
      rw [List.dropLast_cons_of_ne_nil ht]
      exact congrArg (v :: ·) (ih ht)

/-- Witness for `decode_truncated_drops_partial_value` at the two-element
sequence `[72, 300]`. -/
theorem decode_truncated_drops_partial_value_witness :
    decode_varint ((([72, 300].map encode_varint).flatten).dropLast) = [72] :=
  (decode_truncated_drops_partial_value [72, 300] (by decide)).trans rfl

/-- **C3 (counterexample)**: the encoding of 300 is `[0xAC, 0x02]`; with the
last byte dropped the stream is the non-empty `[0xAC]`, and `decode_varint`
returns the ordinary value `[]` — no `TruncatedVarint` failure exists (the
decoder is a total function into `List Nat`). -/
theorem truncated_varint_returns_silently :
    encode_varint 300 = [172, 2] ∧ decode_varint [172] = [] :=
  ⟨rfl, rfl⟩

/-- **C9**: the varint round trip: decoding the encoding of any single
non-negative value yields exactly that value, and decoding the byte stream
`numpy_array_to_varint_bytearray` builds from any flat array yields the
array's flat data (any length, duplicates or not). -/
theorem varint_round_trip :
    (∀ v : Nat, decode_varint (encode_varint v) = [v]) ∧
    (∀ (shape : List Nat) (l : List Nat),
      decode_varint (numpy_array_to_varint_bytearray ⟨shape, l⟩) = l) :=
  ⟨decode_encode, fun _ l => decode_encode_list l⟩

/-- **C1**: the spec's version-3 end-to-end scenario.  Saving the 2x2x2
schematic as version 3 and loading the result preserves the block grid, the
palette export (canonical strings and indices, hence the set of canonical
strings), the offset and the dimensions — but the loaded block-entity list
is empty: `_parse_file_v3` never reads `BlockEntities` back, so the round
trip drops the block entity that was added. -/
theorem v3_round_trip_drops_block_entities :
    roundTripOriginal.map (fun s => s.block_entities) = .ok [roundTripEntity] ∧
    roundTripLoaded.map (fun s => s.block_entities) = .ok [] ∧
    roundTripLoaded.map (fun s => s.block_data)
      = roundTripOriginal.map (fun s => s.block_data) ∧
    roundTripLoaded.map (fun s => s.block_palette.get_palette)
      = roundTripOriginal.map (fun s => s.block_palette.get_palette) ∧
    roundTripLoaded.map (fun s => s.offset)
      = roundTripOriginal.map (fun s => s.offset) ∧
    roundTripLoaded.map (fun s => (s.width, s.height, s.length))
      = .ok (2, 2, 2) :=
  ⟨rfl, rfl, rfl, rfl, rfl, rfl⟩

/-- **C2**: on a schematic with `width = 1`, `height = 1`, `length = 2`,
the coordinate `(0, 0, 1)` is in bounds (`z < length`), yet `set_block`
raises `IndexError`: the grid is allocated with shape
`(length, height, width)` but indexed `[x, y, z]`, so the z-axis is checked
against `length` while numpy sizes it by `width`.  On a cube the same
indexing is consistent and set-then-get returns the value just set, and a
genuinely out-of-bounds coordinate always fails the bounds check first. -/
theorem set_block_in_bounds_index_crash :
    (Schematic.init 1 1 2).map (fun s => s.check_coordinates 0 0 1)
      = .ok (.ok ()) ∧
    ((Schematic.init 1 1 2).bind
        (fun s => s.set_block 0 0 1 ⟨pys "minecraft:stone", none⟩)).map
        (fun s => s.width)
      = .error .indexError ∧
    ((Schematic.init 2 2 2).bind
        (fun s => s.set_block 0 1 1 ⟨pys "minecraft:stone", none⟩)).bind
        (fun s => s.get_block 0 1 1)
      = .ok ⟨pys "minecraft:stone", none⟩ ∧
    ((Schematic.init 2 2 2).bind
        (fun s => s.set_block 0 0 2 ⟨pys "minecraft:stone", none⟩)).map
        (fun s => s.width)
      = .error (.valueError "Coordinates out of range.") ∧
    (Schematic.init 2 2 2).map (fun s => s.get_block 2 0 0)
      = .ok (.error (.valueError "Coordinates out of range.")) :=
  ⟨rfl, rfl, rfl, rfl, rfl⟩

/-- **C7**: `_save_to_file_v2` reads the undefined attributes
`self._data_version`, `self._metadata` and `self._offset` (the constructor
defines them without the leading underscore), so saving any schematic as
version 2 raises `AttributeError` while building the keyword arguments and
never produces a tagged tree — in particular it never populates
`BiomePalette`/`BiomePaletteMax` from the block palette as the (buggy)
expressions in its body would. -/
theorem save_v2_always_attribute_error (s : Schematic) :
    s.save_to_file_v2 = .error .attributeError ∧
    s.save_to_file 2 = .error .attributeError :=
  ⟨rfl, rfl⟩

/-- **C10**: on the parse path every dimension tag is converted by
`value & 0xFFFF` (= reduction modulo `2^16`), so version-3 and version-2
files storing `Width = -1` load successfully with width `65535`, while
direct construction rejects every value outside `[0, 65535]` with
`ValueError`. -/
theorem parse_dims_masked_mod_65536 :
    (∀ v : Int, Int.land v 65535 = from_unsigned_short v ∧
      from_unsigned_short v = v.emod 65536) ∧
    (Schematic.parse_file negWidthTreeV3).map (fun s => s.width)
      = .ok 65535 ∧
    (Schematic.parse_file negWidthTreeV2).map (fun s => s.width)
      = .ok 65535 ∧
    (∀ v : Int, (v < 0 ∨ 65535 < v) →
      to_unsigned_short v
          = .error (.valueError "Value must be between 0 and 65535.") ∧
        ∀ h l : Int, (Schematic.init v h l).map (fun s => s.width)
          = .error (.valueError "Value must be between 0 and 65535.")) := by
  refine ⟨fun v => ⟨int_land_mask v, rfl⟩, rfl, rfl, fun v hv => ⟨?_, ?_⟩⟩
  · unfold to_unsigned_short
    rw [if_pos (by omega)]
  · intro h l
    unfold Schematic.init
    have hts : to_unsigned_short v
        = .error (.valueError "Value must be between 0 and 65535.") := by
      unfold to_unsigned_short
      rw [if_pos (by omega)]
    rw [hts]
    rfl

lemma splitOnChar_of_not_mem (c : Char) (l : PyStr) (h : c ∉ l) :
    splitOnChar c l = [l] := by
  induction l with
  | nil => rfl
  | cons x xs ih =>
    have hx : ¬(x = c) := fun he => h (by simp [he])
    have hxs : c ∉ xs := fun hm => h (by simp [hm])
    unfold splitOnChar
    rw [if_neg hx, ih hxs]

lemma splitOnChar_cons (c x : Char) (xs : PyStr) :
    splitOnChar c (x :: xs) =
      if x = c then [] :: splitOnChar c xs
      else
        match splitOnChar c xs with
        | [] => [[x]]
        | h :: t => (x :: h) :: t := rfl

lemma splitOnChar_append (c : Char) (a b : PyStr) (h : c ∉ a) :
    splitOnChar c (a ++ c :: b) = a :: splitOnChar c b := by
  induction a with
  | nil =>
    show splitOnChar c (c :: b) = [] :: splitOnChar c b
    rw [splitOnChar_cons, if_pos rfl]
  | cons x xs ih =>
    have hx : ¬(x = c) := fun he => h (by simp [he])
    have hxs : c ∉ xs := fun hm => h (by simp [hm])
    show splitOnChar c (x :: (xs ++ c :: b)) = (x :: xs) :: splitOnChar c b
    rw [splitOnChar_cons, if_neg hx, ih hxs]

lemma splitOnChar_pyJoin (parts : List PyStr) (hne : parts ≠ [])
    (h : ∀ p ∈ parts, ',' ∉ p) :
    splitOnChar ',' (pyJoin [','] parts) = parts := by
  induction parts with
  | nil => exact absurd rfl hne
  | cons p rest ih =>
    cases rest with
    | nil => exact splitOnChar_of_not_mem ',' p (h p (by simp))
    | cons q qs =>
      show splitOnChar ',' (p ++ [','] ++ pyJoin [','] (q :: qs))
        = p :: q :: qs
      rw [List.append_assoc]
      show splitOnChar ',' (p ++ ',' :: pyJoin [','] (q :: qs)) = p :: q :: qs
      rw [splitOnChar_append _ _ _ (h p (by simp))]
      rw [ih (by simp) (fun x hx => h x (by simp [hx]))]

lemma mem_pyJoin (c : Char) (sep : PyStr) (parts : List PyStr)
    (h : c ∈ pyJoin sep parts) : c ∈ sep ∨ ∃ p ∈ parts, c ∈ p := by
  induction parts with
  | nil => simp [pyJoin] at h
  | cons p rest ih =>
    cases rest with
    | nil => exact Or.inr ⟨p, by simp, h⟩
    | cons q qs =>
      rw [show pyJoin sep (p :: q :: qs) = p ++ sep ++ pyJoin sep (q :: qs)
        from rfl] at h
      rcases List.mem_append.mp h with h1 | h2
      · rcases List.mem_append.mp h1 with ha | hb
        · exact Or.inr ⟨p, by simp, ha⟩
        · exact Or.inl hb
      · rcases ih h2 with h3 | h4
        · exact Or.inl h3
        · obtain ⟨x, hx, hcx⟩ := h4
          exact Or.inr ⟨x, by simp [hx], hcx⟩

lemma pyJoin_comma_ne_nil (parts : List PyStr) (hne : parts ≠ [])
    (h : ∀ p ∈ parts, p ≠ []) : pyJoin [','] parts ≠ [] := by
  cases parts with
  | nil => exact absurd rfl hne
  | cons p rest =>
    cases rest with
    | nil => exact h p (by simp)
    | cons q qs =>
      show p ++ [','] ++ pyJoin [','] (q :: qs) ≠ []
      simp

lemma pyAssocInsert_of_lookup_none {β : Type} (d : List (PyStr × β))
    (k : PyStr) (v : β) (h : pyAssocLookup d k = none) :
    pyAssocInsert d k v = d ++ [(k, v)] := by
  induction d with
  | nil => rfl
  | cons hd rest ih =>
    unfold pyAssocLookup at h
    unfold pyAssocInsert
    by_cases hk : hd.1 = k
    · rw [if_pos hk] at h
      exact absurd h (by simp)
    · rw [if_neg hk] at h
      rw [if_neg hk, ih h]
      rfl

lemma pyAssocLookup_append_one {β : Type} (d : List (PyStr × β))
    (k : PyStr) (v : β) (x : PyStr) (hx : pyAssocLookup d x = none)
    (hkx : ¬(k = x)) : pyAssocLookup (d ++ [(k, v)]) x = none := by
  induction d with
  | nil => simp [pyAssocLookup, hkx]
  | cons hd rest ih =>
    unfold pyAssocLookup at hx ⊢
    by_cases hk : hd.1 = x
    · rw [if_pos hk] at hx
      exact absurd hx (by simp)
    · rw [if_neg hk] at hx
      rw [List.cons_append]
      show (if hd.1 = x then some hd.2
        else pyAssocLookup (rest ++ [(k, v)]) x) = none
      rw [if_neg hk]
      exact ih hx

lemma foldlM_parse_props (props : List (PyStr × PyStr))
    (hkv : ∀ kv ∈ props, '=' ∉ kv.1 ∧ '=' ∉ kv.2)
    (hnodup : (props.map Prod.fst).Nodup) :
    ∀ acc : List (PyStr × PyStr),
      (∀ kv ∈ props, pyAssocLookup acc kv.1 = none) →
      (props.map (fun kv => kv.1 ++ '=' :: kv.2)).foldlM
          parse_property_step acc
        = .ok (acc ++ props) := by
  induction props with
  | nil =>
    intro acc _
    simp only [List.map_nil, List.foldlM_nil, List.append_nil]
    rfl
  | cons kv rest ih =>
    intro acc hacc
    rw [List.map_cons, List.foldlM_cons]
    have hstep : parse_property_step acc (kv.1 ++ '=' :: kv.2)
        = .ok (acc ++ [kv]) := by
      unfold parse_property_step
      rw [splitOnChar_append _ _ _ (hkv kv (by simp)).1,
        splitOnChar_of_not_mem _ _ (hkv kv (by simp)).2]
      show Except.ok (pyAssocInsert acc kv.1 kv.2) = _
      rw [pyAssocInsert_of_lookup_none _ _ _ (hacc kv (by simp))]
    rw [hstep]
    have hnodup' : kv.1 ∉ rest.map Prod.fst ∧ (rest.map Prod.fst).Nodup := by
      rw [List.map_cons] at hnodup
      exact List.nodup_cons.mp hnodup
    have hrec := ih (fun q hq => hkv q (by simp [hq])) hnodup'.2 (acc ++ [kv])
      (fun q hq => pyAssocLookup_append_one _ _ _ _
        (hacc q (by simp [hq]))
        (fun he => hnodup'.1 (by
          rw [he]
          exact List.mem_map_of_mem Prod.fst hq)))
    show (rest.map (fun kv => kv.1 ++ '=' :: kv.2)).foldlM
        parse_property_step (acc ++ [kv]) = _
    rw [hrec]
    simp

/-- **C6 (counterexample)**: the block with id `"a"` and an *empty* (but
present) property mapping renders as the bare id `"a"`, which parses back to
a block with *absent* properties; Python deems `{} != None`, so the round
trip does not reproduce an equal value. -/
theorem block_empty_properties_round_trip_fails :
    blockToString ⟨pys "a", some []⟩ = pys "a" ∧
    parseBlockString (pys "a") = .ok ⟨pys "a", none⟩ ∧
    blockBeq ⟨pys "a", none⟩ ⟨pys "a", some []⟩ = false :=
  ⟨rfl, rfl, rfl⟩

/-- **C6 (amended)**: the canonical-string round trip holds for every
BlockValue whose properties are absent or a *non-empty* mapping, provided id,
keys and values stay clear of the delimiter characters the parser splits on
(no `'['` in the id; no `'['`, `','` or `'='` in keys or values; keys
distinct): parsing the rendered string reproduces the block exactly. -/
theorem block_canonical_string_round_trip (b : Block)
    (hid : '[' ∉ b.id)
    (hprops : ∀ props, b.properties = some props →
      props ≠ [] ∧ (props.map Prod.fst).Nodup ∧
      ∀ kv ∈ props, '[' ∉ kv.1 ∧ ',' ∉ kv.1 ∧ '=' ∉ kv.1 ∧
        '[' ∉ kv.2 ∧ ',' ∉ kv.2 ∧ '=' ∉ kv.2) :
    parseBlockString (blockToString b) = .ok b := by
  rcases b with ⟨bid, props⟩
  cases props with
  | none =>
    show parseBlockString bid = .ok ⟨bid, none⟩
    unfold parseBlockString
    rw [if_neg hid]
  | some props =>
    obtain ⟨hne, hnodup, hkv⟩ := hprops props rfl
    have hid' : '[' ∉ bid := hid
    have hpartne : ∀ p ∈ props.map (fun kv => kv.1 ++ '=' :: kv.2), p ≠ [] := by
      intro p hp
      obtain ⟨kv, _, rfl⟩ := List.mem_map.mp hp
      simp
    have hpartsne : props.map (fun kv => kv.1 ++ '=' :: kv.2) ≠ [] := by
      simpa using hne
    have hjoin_ne : pyJoin [',']
        (props.map (fun kv => kv.1 ++ '=' :: kv.2)) ≠ [] :=
      pyJoin_comma_ne_nil _ hpartsne hpartne
    have hbracket_join : '[' ∉ pyJoin [',']
        (props.map (fun kv => kv.1 ++ '=' :: kv.2)) := by
      intro hm
      rcases mem_pyJoin _ _ _ hm with hsep | hin
      · simp at hsep
      · obtain ⟨p, hp, hcp⟩ := hin
        obtain ⟨kv, hkvmem, rfl⟩ := List.mem_map.mp hp
        rcases List.mem_append.mp hcp with h1 | h2
        · exact (hkv kv hkvmem).1 h1
        · rcases List.mem_cons.mp h2 with h3 | h4
          · simp at h3
          · exact (hkv kv hkvmem).2.2.2.1 h4
    have hcomma : ∀ p ∈ props.map (fun kv => kv.1 ++ '=' :: kv.2),
        ',' ∉ p := by
      intro p hp hm
      obtain ⟨kv, hkvmem, rfl⟩ := List.mem_map.mp hp
      rcases List.mem_append.mp hm with h1 | h2
      · exact (hkv kv hkvmem).2.1 h1
      · rcases List.mem_cons.mp h2 with h3 | h4
        · simp at h3
        · exact (hkv kv hkvmem).2.2.2.2.1 h4
    have hstr : blockToString ⟨bid, some props⟩
        = bid ++ '[' :: (pyJoin [',']
            (props.map (fun kv => kv.1 ++ '=' :: kv.2)) ++ [']']) := by
      simp only [blockToString]
      rw [if_neg hne, if_pos hjoin_ne]
    rw [hstr]
    unfold parseBlockString
    rw [if_pos (by simp : '[' ∈ bid ++ '[' :: (pyJoin [',']
      (props.map (fun kv => kv.1 ++ '=' :: kv.2)) ++ [']']))]
    rw [splitOnChar_append _ _ _ hid']
    rw [splitOnChar_of_not_mem '[' _ (by
      intro hm
      rcases List.mem_append.mp hm with h1 | h2
      · exact hbracket_join h1
      · simp at h2)]
    simp only [List.dropLast_concat]
    rw [splitOnChar_pyJoin _ hpartsne hcomma]
    rw [foldlM_parse_props props
      (fun kv h => ⟨(hkv kv h).2.2.1, (hkv kv h).2.2.2.2.2⟩) hnodup []
      (fun _ _ => rfl)]
    rfl

/-- Witness for `block_canonical_string_round_trip` at a block with one
property. -/
theorem block_canonical_string_round_trip_witness :
    parseBlockString (blockToString
        ⟨pys "minecraft:wool", some [(pys "color", pys "red")]⟩)
      = .ok ⟨pys "minecraft:wool", some [(pys "color", pys "red")]⟩ :=
  block_canonical_string_round_trip
    ⟨pys "minecraft:wool", some [(pys "color", pys "red")]⟩
    (by decide)
    (by
      intro props hp
      injection hp with hp
      subst hp
      exact ⟨by decide, by decide, by decide⟩)

/-- **C5 (counterexample)**: after loading a one-entry palette, `get_block`
at the unassigned negative index `-1` does not fail — it silently wraps to
the last element, Python-list style, and returns an existing value. -/
theorem palette_get_negative_index_wraps :
    (Palette.empty.set_palette [(pys "a", 0)]).map (fun p => p.get_block (-1))
      = .ok (.ok ⟨pys "a", none⟩) := rfl

/-- **C5 (amended)**: `Palette.get_block` fails with `IndexError` at every
index at or beyond the assigned size and at every negative index below
`-size`, but a negative index in `[-size, -1]` silently wraps to
`size + index` exactly as a Python list subscription does. -/
theorem palette_get_block_range_spec (p : Palette) (index : Int) :
    ((p.index_to_block.length : Int) ≤ index →
      p.get_block index = .error .indexError) ∧
    (index < -(p.index_to_block.length : Int) →
      p.get_block index = .error .indexError) ∧
    (-(p.index_to_block.length : Int) ≤ index → index < 0 →
      p.get_block index
        = p.get_block ((p.index_to_block.length : Int) + index)) := by
  unfold Palette.get_block pyListGet
  refine ⟨?_, ?_, ?_⟩
  · intro h
    rw [if_pos (by omega : (0 : Int) ≤ index)]
    have hn : p.index_to_block.get? index.toNat = none :=
      List.get?_eq_none.mpr (by omega)
    rw [hn]
  · intro h
    rw [if_neg (by omega : ¬(0 : Int) ≤ index)]
    rw [if_neg
      (by omega : ¬(0 : Int) ≤ (p.index_to_block.length : Int) + index)]
  · intro h1 h2
    rw [if_neg (by omega : ¬(0 : Int) ≤ index)]
    rw [if_pos (by omega : (0 : Int) ≤ (p.index_to_block.length : Int) + index)]
    rw [if_pos (by omega : (0 : Int) ≤ (p.index_to_block.length : Int) + index)]

/-- Witness for `palette_get_block_range_spec` on a one-element palette. -/
theorem palette_get_block_range_spec_witness :
    (Palette.mk [(⟨pys "a", none⟩, 0)] [⟨pys "a", none⟩]).get_block 2
        = .error .indexError ∧
      (Palette.mk [(⟨pys "a", none⟩, 0)] [⟨pys "a", none⟩]).get_block (-2)
        = .error .indexError ∧
      (Palette.mk [(⟨pys "a", none⟩, 0)] [⟨pys "a", none⟩]).get_block (-1)
        = (Palette.mk [(⟨pys "a", none⟩, 0)] [⟨pys "a", none⟩]).get_block
            ((1 : Int) + -1) :=
  ⟨(palette_get_block_range_spec _ 2).1 (by decide),
   (palette_get_block_range_spec _ (-2)).2.1 (by decide),
   (palette_get_block_range_spec _ (-1)).2.2 (by decide) (by decide)⟩

lemma pyBlockInsert_of_lookup_none (d : List (Block × Int)) (b : Block)
    (i : Int) (h : pyBlockLookup d b = none) :
    pyBlockInsert d b i = d ++ [(b, i)] := by
  induction d with
  | nil => rfl
  | cons hd rest ih =>
    unfold pyBlockLookup at h
    unfold pyBlockInsert
    by_cases hbeq : blockBeq hd.1 b = true
    · rw [if_pos hbeq] at h
      exact absurd h (by simp)
    · rw [if_neg hbeq] at h
      rw [if_neg hbeq, ih h]
      rfl

lemma pyBlockLookup_append_one (d : List (Block × Int)) (b : Block) (i : Int)
    (x : Block) (hx : pyBlockLookup d x = none) (hbx : blockBeq b x = false) :
    pyBlockLookup (d ++ [(b, i)]) x = none := by
  induction d with
  | nil => simp [pyBlockLookup, hbx]
  | cons hd rest ih =>
    unfold pyBlockLookup at hx ⊢
    by_cases hbeq : blockBeq hd.1 x = true
    · rw [if_pos hbeq] at hx
      exact absurd hx (by simp)
    · rw [if_neg hbeq] at hx
      rw [List.cons_append]
      show (if blockBeq hd.1 x then some hd.2
        else pyBlockLookup (rest ++ [(b, i)]) x) = none
      rw [if_neg hbeq]
      exact ih hx

lemma set_palette_cons (p : Palette) (e : PyStr × Int)
    (es : List (PyStr × Int)) :
    p.set_palette (e :: es) =
      match parseBlockString e.1 with
      | .ok block =>
        Palette.set_palette
          ⟨pyBlockInsert p.block_to_index block e.2,
           p.index_to_block ++ [block]⟩ es
      | .error err => .error err := by
  rcases h : parseBlockString e.1 with err | b <;>
    simp only [Palette.set_palette, List.foldlM_cons, h] <;> rfl

lemma set_palette_dense_go (pairs : List (PyStr × Block)) :
    ∀ p : Palette,
      (∀ pr ∈ pairs, parseBlockString pr.1 = .ok pr.2) →
      (∀ pr ∈ pairs, pyBlockLookup p.block_to_index pr.2 = none) →
      (pairs.map Prod.snd).Pairwise (fun a b => blockBeq a b = false) →
      p.set_palette (denseEntries pairs p.index_to_block.length)
        = .ok ⟨p.block_to_index ++ denseDict pairs p.index_to_block.length,
               p.index_to_block ++ pairs.map Prod.snd⟩ := by
  induction pairs with
  | nil =>
    intro p _ _ _
    simp only [denseEntries, denseDict, List.map_nil, List.append_nil]
    rfl
  | cons pr rest ih =>
    intro p hparse hfresh hpair
    have hhead : parseBlockString pr.1 = .ok pr.2 := hparse pr (by simp)
    show p.set_palette ((pr.1, (p.index_to_block.length : Int))
        :: denseEntries rest (p.index_to_block.length + 1)) = _
    rw [set_palette_cons, hhead]
    show Palette.set_palette
        ⟨pyBlockInsert p.block_to_index pr.2 (p.index_to_block.length : Int),
         p.index_to_block ++ [pr.2]⟩
        (denseEntries rest (p.index_to_block.length + 1)) = _
    rw [pyBlockInsert_of_lookup_none _ _ _ (hfresh pr (by simp))]
    have hpair' := (List.pairwise_cons.mp hpair)
    have hstep := ih ⟨p.block_to_index ++ [(pr.2, (p.index_to_block.length : Int))],
      p.index_to_block ++ [pr.2]⟩
      (fun q hq => hparse q (by simp [hq]))
      (fun q hq => pyBlockLookup_append_one _ _ _ _
        (hfresh q (by simp [hq]))
        (hpair'.1 q.2 (List.mem_map_of_mem Prod.snd hq)))
      hpair'.2
    simp only [List.length_append, List.length_cons, List.length_nil] at hstep
    rw [hstep]
    simp [denseDict, List.append_assoc]

lemma pyListGet_of_get? {α : Type} (l : List α) (n : Nat) (b : α)
    (h : l.get? n = some b) : pyListGet l (n : Int) = .ok b := by
  unfold pyListGet
  rw [if_pos (by omega : (0 : Int) ≤ (n : Int))]
  rw [show ((n : Int)).toNat = n from rfl, h]

lemma denseDict_get (pairs : List (PyStr × Block)) :
    ∀ front : List Block, ∀ e ∈ denseDict pairs front.length,
      pyListGet (front ++ pairs.map Prod.snd) e.2 = .ok e.1 := by
  induction pairs with
  | nil =>
    intro front e he
    simp [denseDict] at he
  | cons pr rest ih =>
    intro front e he
    rcases List.mem_cons.mp he with h1 | h2
    · subst h1
      apply pyListGet_of_get?
      rw [List.get?_append_right (le_refl front.length)]
      simp
    · have := ih (front ++ [pr.2]) e (by
        simpa [List.length_append] using h2)
      simpa [List.append_assoc] using this

/-- **C4 (counterexample)**: loading the non-contiguous mapping
`{X: 5, Y: 2}` installs the dict exactly as supplied but appends the parsed
blocks at the dense positions 0 and 1 of the index-to-value sequence, so a
get at each supplied index (5 and 2) raises `IndexError` instead of
returning the parsed value, and the two tables are inconsistent with each
other (`X` maps to 5 while the sequence holds `X` at 0). -/
theorem set_palette_sparse_counterexample :
    (Palette.empty.set_palette [(pys "X", 5), (pys "Y", 2)]).map
        (fun p => (p.get_block 5, p.get_block 2,
          p.block_to_index, p.index_to_block))
      = .ok (.error .indexError, .error .indexError,
          [(⟨pys "X", none⟩, 5), (⟨pys "Y", none⟩, 2)],
          [⟨pys "X", none⟩, ⟨pys "Y", none⟩]) := rfl

/-- **C4 (amended)**: `set_palette` records the value-to-index mapping as
supplied but appends parsed values at dense sequence positions; hence for a
well-formed mapping whose i-th entry (in iteration order) carries index i
and whose parsed blocks are pairwise distinct, loading an empty palette
yields exactly the supplied table, and a get at each supplied index returns
the value parsed from its canonical string — the two tables are mutually
consistent precisely in this dense in-order case. -/
theorem set_palette_dense_load (pairs : List (PyStr × Block))
    (hparse : ∀ pr ∈ pairs, parseBlockString pr.1 = .ok pr.2)
    (hpair : (pairs.map Prod.snd).Pairwise (fun a b => blockBeq a b = false)) :
    Palette.empty.set_palette (denseEntries pairs 0)
        = .ok ⟨denseDict pairs 0, pairs.map Prod.snd⟩ ∧
      ∀ e ∈ denseDict pairs 0,
        (Palette.mk (denseDict pairs 0) (pairs.map Prod.snd)).get_block e.2
          = .ok e.1 := by
  constructor
  · have h := set_palette_dense_go pairs Palette.empty hparse
      (fun _ _ => rfl) hpair
    simpa [Palette.empty] using h
  · intro e he
    exact denseDict_get pairs [] e he

/-- Witness for `set_palette_dense_load` on the dense mapping
`{X: 0, Y: 1}`. -/
theorem set_palette_dense_load_witness :
    Palette.empty.set_palette
        (denseEntries [(pys "X", ⟨pys "X", none⟩),
          (pys "Y", ⟨pys "Y", none⟩)] 0)
      = .ok ⟨denseDict [(pys "X", ⟨pys "X", none⟩),
          (pys "Y", ⟨pys "Y", none⟩)] 0,
          [⟨pys "X", none⟩, ⟨pys "Y", none⟩]⟩ ∧
    (Palette.mk (denseDict [(pys "X", ⟨pys "X", none⟩),
          (pys "Y", ⟨pys "Y", none⟩)] 0)
        [⟨pys "X", none⟩, ⟨pys "Y", none⟩]).get_block 1
      = .ok ⟨pys "Y", none⟩ :=
  ⟨(set_palette_dense_load
      [(pys "X", ⟨pys "X", none⟩), (pys "Y", ⟨pys "Y", none⟩)]
      (by intro pr hpr; fin_cases hpr <;> rfl) (by decide)).1,
   (set_palette_dense_load
      [(pys "X", ⟨pys "X", none⟩), (pys "Y", ⟨pys "Y", none⟩)]
      (by intro pr hpr; fin_cases hpr <;> rfl) (by decide)).2
     (⟨pys "Y", none⟩, 1) (by decide)⟩

/-- **C8**: version detection: a top-level `Version` tag equal to 3
dispatches to the v3 parser; when the top-level tag is absent, a nested
`Schematic` compound's `Version` tag equal to 3 also dispatches to the v3
parser; and a tree carrying neither field (the nested root, when present,
being a compound, as in every schematic file) fails with
`ValueError("Invalid schematic file: Version not found.")`. -/
theorem parse_version_dispatch :
    (∀ file : NBTFile,
      pyAssocLookup file (pys "Version") = some (NBT.int 3) →
      Schematic.parse_file file = Schematic.parse_file_v3 file) ∧
    (∀ (file : NBTFile) (c : NBTFile),
      pyAssocLookup file (pys "Version") = none →
      pyAssocLookup file (pys "Schematic") = some (NBT.compound c) →
      pyAssocLookup c (pys "Version") = some (NBT.int 3) →
      Schematic.parse_file file = Schematic.parse_file_v3 file) ∧
    (∀ file : NBTFile,
      pyAssocLookup file (pys "Version") = none →
      (∀ c : NBTFile,
        pyAssocLookup file (pys "Schematic") = some (NBT.compound c) →
        pyAssocLookup c (pys "Version") = none) →
      (∀ t : NBT, pyAssocLookup file (pys "Schematic") = some t →
        ∃ c : NBTFile, t = NBT.compound c) →
      Schematic.parse_file file
        = .error (.valueError "Invalid schematic file: Version not found.")) := by
  refine ⟨?_, ?_, ?_⟩
  · intro file h1
    simp only [Schematic.parse_file, h1]
    rfl
  · intro file c h1 h2 h3
    simp only [Schematic.parse_file, h1, h2]
    simp only [h3]
    rfl
  · intro file h1 h2 h3
    simp only [Schematic.parse_file, h1]
    rcases hS : pyAssocLookup file (pys "Schematic") with _ | t
    · simp only [hS]
      rfl
    · obtain ⟨c, rfl⟩ := h3 t hS
      simp only [hS, h2 c hS]
      rfl

/-- Witness for `parse_version_dispatch` at three concrete trees. -/
theorem parse_version_dispatch_witness :
    Schematic.parse_file [(pys "Version", NBT.int 3)]
        = Schematic.parse_file_v3 [(pys "Version", NBT.int 3)] ∧
      Schematic.parse_file
          [(pys "Schematic", NBT.compound [(pys "Version", NBT.int 3)])]
        = Schematic.parse_file_v3
          [(pys "Schematic", NBT.compound [(pys "Version", NBT.int 3)])] ∧
      Schematic.parse_file [(pys "Schematic", NBT.compound [])]
        = .error (.valueError "Invalid schematic file: Version not found.") :=
  ⟨parse_version_dispatch.1 [(pys "Version", NBT.int 3)] rfl,
   parse_version_dispatch.2.1
     [(pys "Schematic", NBT.compound [(pys "Version", NBT.int 3)])]
     [(pys "Version", NBT.int 3)] rfl rfl rfl,
   parse_version_dispatch.2.2 [(pys "Schematic", NBT.compound [])] rfl
     (fun c hc => by
       injection hc with h
       injection h with h
       rw [← h]
       rfl)
     (fun t ht => by
       injection ht with h
       exact ⟨[], h.symm⟩)⟩

/-- Witness for `parse_dims_masked_mod_65536` at `v = 70000`. -/
theorem parse_dims_masked_mod_65536_witness :
    to_unsigned_short 70000
        = .error (.valueError "Value must be between 0 and 65535.") ∧
      (Schematic.init 70000 1 1).map (fun s => s.width)
        = .error (.valueError "Value must be between 0 and 65535.") := by
  have h := parse_dims_masked_mod_65536.2.2.2 70000 (Or.inr (by decide))
  exact ⟨h.1, h.2 1 1⟩

end Schempy
